import Mathlib

/-!
# Verification of the DHIS2 field-discovery-and-mapping engine

Shallow embedding of the core algorithms of `dhis_automation.py`
(class `DHISSmartAutomation`) together with proofs about them.

Browser/DOM interactions are modelled by explicit environments: every
outcome of a remote interaction that the Python code branches on
(element visibility, a raised exception, a count of matching elements)
is a field of an environment record, and the control flow of each
Python function is translated line by line into a pure Lean function
over that environment.  Percentage tolerances written with Python
floats (`0.15`, `0.10`) are embedded as the exact rationals they
denote, using integer cross-multiplication.
-/

set_option autoImplicit false

namespace DHIS

/-- Association-list lookup with Python `dict` semantics (`d.get(k)` /
`k in d`): the first entry whose key equals `k`. -/
def alookup {α : Type} : List (String × α) → String → Option α
  | [], _ => none
  | (k', v) :: t, k => if k' = k then some v else alookup t k

/-- Association-list update with Python `dict` semantics
(`d[k] = v`): overwrite in place if the key is present, otherwise
append at the end (insertion order is preserved). -/
def setEntry {α : Type} : List (String × α) → String → α → List (String × α)
  | [], k, v => [(k, v)]
  | (k', v') :: t, k, v =>
    if k' = k then (k, v) :: t else (k', v') :: setEntry t k v

/-- `abs(a - b)` on Python ints, embedded on `Nat`. -/
def natAbsDiff (a b : Nat) : Nat := max a b - min a b

/-! ## Form fingerprint and the staleness tolerance
(`generate_form_fingerprint` output and the comparison inside
`load_cached_mappings`, `dhis_automation.py` lines 799-840). -/

/-- The structural snapshot produced by `generate_form_fingerprint`:
`tabs_found`, `field_counts_per_tab` (a dict keyed by tab name, kept
here as an insertion-ordered association list) and
`total_field_estimate`.  The `form_hash` member is never consulted by
the staleness check and is omitted. -/
structure FormFingerprint where
  tabs_found : Nat
  field_counts_per_tab : List (String × Nat)
  total_field_estimate : Nat

/-- `current_counts.get(tab, 0)` in the per-tab comparison. -/
def countFor (counts : List (String × Nat)) (tab : String) : Nat :=
  (alookup counts tab).getD 0

/-- Tab-count comparison:
`current_fingerprint.get('tabs_found', 0) != cached_fingerprint.get('tabs_found', 0)`. -/
def tabCountChanged (cached current : FormFingerprint) : Bool :=
  current.tabs_found != cached.tabs_found

/-- Total-count comparison: when `cached_total > 0`, flag a change iff
`abs(current_total - cached_total) / cached_total > 0.10`; embedded by
cross-multiplication as `10 * |diff| > cached_total`. -/
def totalCountChanged (cached current : FormFingerprint) : Bool :=
  cached.total_field_estimate > 0 &&
    10 * natAbsDiff current.total_field_estimate cached.total_field_estimate >
      cached.total_field_estimate

/-- Per-tab comparison: for every `(tab, cached_count)` stored in the
cached fingerprint, flag a change iff
`abs(current_count - cached_count) > max(5, cached_count * 0.15)`;
embedded by cross-multiplication as `100 * |diff| > max 500 (15 * cached_count)`. -/
def perTabCountChanged (cached current : FormFingerprint) : Bool :=
  cached.field_counts_per_tab.any fun p =>
    100 * natAbsDiff (countFor current.field_counts_per_tab p.1) p.2 >
      max 500 (15 * p.2)

/-- The `structure_changed` flag computed inside `load_cached_mappings`.
`cache_data.get('form_fingerprint', {})` yields a falsy value when the
fingerprint is absent or was stored as `{}`; that case is `none` here
and all three checks are skipped (`if cached_fingerprint:`). -/
def structureChanged (cachedFp : Option FormFingerprint) (current : FormFingerprint) : Bool :=
  match cachedFp with
  | none => false
  | some cached =>
      tabCountChanged cached current || totalCountChanged cached current ||
        perTabCountChanged cached current

/-! ## Mapping cache entries and `load_cached_mappings`
(`dhis_automation.py` lines 778-855). -/

/-- One value of the cached `mappings` dict.  `fill_form_data` accepts
both the current format (a dict with `selector` and `tab` keys; a
missing `tab` key defaults to `"Page1"`) and the legacy format (a bare
selector string, assumed to live on `"Page1"`). -/
inductive CacheEntry where
  | dictEntry (selector : String) (tab : Option String)
  | strEntry (selector : String)
deriving DecidableEq

/-- `mapping_info.get("tab", "Page1")`, with the legacy string format
defaulting to `"Page1"`. -/
def CacheEntry.tabOf : CacheEntry → String
  | .dictEntry _ (some t) => t
  | .dictEntry _ none => "Page1"
  | .strEntry _ => "Page1"

/-- The selector used for filling. -/
def CacheEntry.selectorOf : CacheEntry → String
  | .dictEntry s _ => s
  | .strEntry s => s

/-- The parsed contents of `dhis_field_mappings.json` that
`load_cached_mappings` consults: the `mappings` dict and the optional
`form_fingerprint`. -/
structure CacheData where
  mappings : List (String × CacheEntry)
  fingerprint : Option FormFingerprint

/-- `load_cached_mappings`.  Inputs model the outcomes of the side
effects the code branches on: whether `os.path.exists(self.cache_file)`
holds, the result of opening/parsing the file and reading its timestamp
(`none` models any exception caught by the outer handler), the cache
age in hours, and the result of `generate_form_fingerprint` on the
live page (`Except.error` models an exception inside the validation
`try` block, whose handler loads the cached mappings anyway). -/
def load_cached_mappings (fileExists : Bool) (parsed : Option CacheData)
    (ageHours : ℚ) (fpResult : Except Unit FormFingerprint) : Bool :=
  if !fileExists then false
  else
    match parsed with
    | none => false
    | some cd =>
      if cd.mappings.length = 0 then false
      else if ageHours < 24 then
        match fpResult with
        | .error _ => true
        | .ok current => if structureChanged cd.fingerprint current then false else true
      else false

/-! ## The tab-aware form filler
(`fill_form_data`, `_switch_to_tab`, `fill_field_by_selector`,
`dhis_automation.py` lines 884-1052). -/

/-- The behaviour of one page control during a fill attempt:
whether `element.wait_for(state="visible", timeout=5000)` succeeds
within its timeout, and whether `element.clear()` / `element.fill(...)`
raise afterwards. -/
structure FieldSpec where
  visible : Bool
  fillThrows : Bool

/-- The behaviour of one tab during `_switch_to_tab`: whether any of
the four tab selector strategies finds a clickable element, whether the
verification count itself raises (in which case the code assumes
success), and the value of
`page.locator('input.entryfield:visible').count()` after the switch. -/
structure TabSpec where
  clickable : Bool
  verifyRaises : Bool
  visibleFieldCount : Nat

/-- The page environment a fill pass runs against. -/
structure FillEnv where
  fieldAt : String → FieldSpec
  tabAt : String → TabSpec

/-- `fill_field_by_selector(selector, value)`: returns `True` iff the
element becomes visible in time and clearing/filling does not raise;
every exception is caught and produces `False`.  The value being
written does not influence the outcome. -/
def fill_field_by_selector (env : FillEnv) (selector : String) : Bool :=
  let f := env.fieldAt selector
  if !f.visible then false
  else if f.fillThrows then false
  else true

/-- `_switch_to_tab(tab_name)`: `False` if no selector strategy finds a
clickable tab; after a click, `True` if the verification count raises
(success is assumed), `False` if zero `input.entryfield:visible`
elements are counted, `True` otherwise. -/
def switch_to_tab (env : FillEnv) (tabName : String) : Bool :=
  let t := env.tabAt tabName
  if !t.clickable then false
  else if t.verifyRaises then true
  else if t.visibleFieldCount = 0 then false
  else true

/-- A data value handed to `fill_form_data`: `none` models Python
`None`, `some s` models any other scalar via its string form (the
filler only ever uses `str(value)`; no non-`None` scalar compares equal
to `""` unless it is the empty string itself). -/
abbrev DataValue := Option String

/-- The filter `value is not None and value != ""` applied before
grouping. -/
def nonEmptyValue : DataValue → Bool
  | none => false
  | some s => !(s = "")

/-- One grouped assignment `(field_name, value, selector)`. -/
abbrev Assignment := String × String × String

/-- Appending to `fields_by_tab[tab]`, creating the key on first use
(`if tab not in fields_by_tab: fields_by_tab[tab] = []`).  Insertion
order of tabs is preserved, as for a Python dict. -/
def insertGroup : List (String × List Assignment) → String → Assignment →
    List (String × List Assignment)
  | [], tab, a => [(tab, [a])]
  | (t, items) :: rest, tab, a =>
    if t = tab then (t, items ++ [a]) :: rest
    else (t, items) :: insertGroup rest tab a

/-- One iteration of the grouping loop of `fill_form_data`: an entry
with a non-empty value and a cached mapping is appended to its tab's
group; a non-empty entry without a mapping goes to `unmapped_fields`;
entries with `None` or empty values are dropped. -/
def groupStep (cache : List (String × CacheEntry))
    (acc : List (String × List Assignment) × List String) (kv : String × DataValue) :
    List (String × List Assignment) × List String :=
  if nonEmptyValue kv.2 then
    match alookup cache kv.1 with
    | some entry =>
        (insertGroup acc.1 entry.tabOf (kv.1, (kv.2.getD ""), entry.selectorOf), acc.2)
    | none => (acc.1, acc.2 ++ [kv.1])
  else acc

/-- The grouping loop of `fill_form_data`: walk the data dict in
order, producing `(fields_by_tab, unmapped_fields)`. -/
def groupFieldsByTab (cache : List (String × CacheEntry)) (data : List (String × DataValue)) :
    List (String × List Assignment) × List String :=
  data.foldl (groupStep cache) ([], [])

/-- The observable outcome of a fill pass: the per-field `results`
dict in insertion order, and the list of field names on which
`fill_field_by_selector` was actually invoked. -/
structure FillOutcome where
  results : List (String × Bool)
  attempted : List String

/-- Processing of one `(tab_name, fields)` group inside
`fill_form_data`: on a failed tab switch every field of the group is
recorded as `False` and no fill is attempted; otherwise the per-field
loop appends, for each field in order, the outcome of
`fill_field_by_selector` (the environment is unchanged by each fill,
so the loop is the pointwise map of the group). -/
def fillTabGroup (env : FillEnv) (acc : FillOutcome) (tab : String)
    (fields : List Assignment) : FillOutcome :=
  if switch_to_tab env tab then
    { results := acc.results ++ fields.map (fun f => (f.1, fill_field_by_selector env f.2.2)),
      attempted := acc.attempted ++ fields.map (fun f => f.1) }
  else
    { acc with results := acc.results ++ fields.map (fun f => (f.1, false)) }

/-- The `for tab_name, fields in fields_by_tab.items()` loop of
`fill_form_data`, with an explicit accumulator. -/
def fillGroups (env : FillEnv) (acc : FillOutcome)
    (groups : List (String × List Assignment)) : FillOutcome :=
  groups.foldl (fun a g => fillTabGroup env a g.1 g.2) acc

/-- `fill_form_data(data)` under cached mappings `cache`.  The initial
reset `_switch_to_tab("Page1")` has no observable effect on the result
map and is not recorded.  Exception points inside one group are those
of `fill_field_by_selector` and `_switch_to_tab`; the enclosing
per-tab handler is not reached in this model. -/
def fill_form_data (env : FillEnv) (cache : List (String × CacheEntry))
    (data : List (String × DataValue)) : FillOutcome :=
  fillGroups env ⟨[], []⟩ (groupFieldsByTab cache data).1

/-- `successful = sum(1 for success in results.values() if success)`. -/
def countSuccesses (results : List (String × Bool)) : Nat :=
  results.countP (fun p => p.2 = true)

/-- The self-healing trigger at the end of `fill_form_data`:
`len(results) > 0` and `success_rate < 0.5`, i.e.
`2 * successful < len(results)` exactly. -/
def lowSuccessRate (o : FillOutcome) : Bool :=
  o.results.length > 0 && 2 * countSuccesses o.results < o.results.length

/-- `self.cache_file`. -/
def cacheFileName : String := "dhis_field_mappings.json"

/-- The backup destination `self.cache_file + ".backup_failed"`. -/
def cacheBackupName : String := cacheFileName ++ ".backup_failed"

/-- A flat file system: path to contents. -/
abbrev FS := List (String × String)

/-- `os.path.exists` / reading a file. -/
def fsRead (fs : FS) (path : String) : Option String := alookup fs path

/-- Writing a file (overwriting any previous contents at that path). -/
def fsWrite (fs : FS) (path contents : String) : FS := setEntry fs path contents

/-- The file-system effect of the self-healing block at the end of
`fill_form_data`: when the success rate is below 50 percent and the
cache file exists, `shutil.copy(self.cache_file, cache_backup)` writes
a copy; nothing is ever deleted or moved. -/
def selfHealingEffect (fs : FS) (o : FillOutcome) : FS :=
  if lowSuccessRate o then
    match fsRead fs cacheFileName with
    | some contents => fsWrite fs cacheBackupName contents
    | none => fs
  else fs

/-- Whether the staleness recommendation
(`"TIP: Delete dhis_field_mappings.json to force fresh discovery"`) is
logged by the self-healing block. -/
def staleRecommendationLogged (o : FillOutcome) : Bool :=
  lowSuccessRate o

/-! ## The generated-table mapping tier
(`_try_complete_mapping`, `dhis_automation.py` lines 1763-1821). -/

/-- A scalar from the health-facility input record, as Python sees it
before `str(value)` is applied. -/
inductive HValue where
  | str (s : String)
  | int (n : Int)
  | bool (b : Bool)
deriving DecidableEq

/-- Python `str(value)` on the scalars above (`str(True) = "True"`,
`str(False) = "False"`, integers print in decimal). -/
def pyStr : HValue → String
  | .str s => s
  | .int n => toString n
  | .bool true => "True"
  | .bool false => "False"

/-- The metadata keys skipped before mapping
(`['province_name', 'health_facility_name', 'month', 'year', 'zone', 'type']`). -/
def metadataKeys : List String :=
  ["province_name", "health_facility_name", "month", "year", "zone", "type"]

/-- `_try_complete_mapping(mapping_file, health_data)` after the file
has been read: `generatedMappings` is the `mappings` dict of
`complete_field_mapping.json` (the empty list models a missing file, a
parse error, or a file with no mappings - all of which return `{}`).
The `dhis2_fields` cache set is consulted only for a debug log line
and never changes the output, so it is not a parameter.  Every mapped
value is `str(value)`; no other transformation is applied. -/
def tryCompleteMapping (generatedMappings : List (String × String))
    (healthData : List (String × HValue)) : List (String × String) :=
  if generatedMappings.isEmpty then []
  else
    healthData.foldl
      (fun acc kv =>
        if kv.1 ∈ metadataKeys then acc
        else
          match alookup generatedMappings kv.1 with
          | some dhisField => setEntry acc dhisField (pyStr kv.2)
          | none => acc)
      []

/-! ## The LLM fallback tier and its merge
(`map_health_data_to_dhis_fields`, `dhis_automation.py` lines
1471-1485, and the merge in `main`, lines 2033-2043). -/

/-- The key validation applied to the parsed LLM response: keep
`(dhis_field, str(value))` exactly when `dhis_field in dhis2_fields`,
the list of keys of the cached mappings; every other key is discarded
(collected into `invalid_fields` for a warning). -/
def validateLLMMappings (dhis2Fields : List String)
    (mappedFields : List (String × String)) : List (String × String) :=
  mappedFields.foldl
    (fun acc p => if dhis2Fields.contains p.1 then acc ++ [p] else acc)
    []

/-- The merge in `main`:
`if field not in mapped_data: mapped_data[field] = value` for each LLM
result - a key already produced by the complete-mapping tier is never
overwritten. -/
def mergeLLMResults (mappedData llmMapped : List (String × String)) :
    List (String × String) :=
  llmMapped.foldl
    (fun acc p => if (alookup acc p.1).isSome then acc else acc ++ [p])
    mappedData

/-! ## Organizational-unit path navigation
(`navigate_to_org_unit_by_path`, `dhis_automation.py` lines 373-438,
and its use in `main`, lines 1986-1989). -/

/-- A cached org-unit record (`dhis_org_units.json` entry). -/
structure OrgUnitInfo where
  id : String
  full_element_id : String
  level : Nat
deriving DecidableEq

/-- The remote interactions `navigate_to_org_unit_by_path` performs on
a path segment, in order. -/
inductive NavEvent where
  | reportMissing (name : String)
  | expand (name : String)
  | select (name : String)
deriving DecidableEq

/-- Whether `_select_org_unit(name)` raises (no link selector strategy
succeeds); `_expand_org_unit` catches all of its own errors and its
boolean result is discarded by the caller, so expansion never fails
the walk. -/
structure NavEnv where
  selectFails : String → Bool

/-- The `for i, unit_name in enumerate(unit_path)` loop: each segment
is first looked up in the org-unit cache - a miss logs
`"Organizational unit not found: <name>"` and returns `False`
immediately.  A present non-terminal segment is expanded; the present
terminal segment is selected, an exception from the selection being
caught by the outer handler which returns `False`. -/
def navigateGo (env : NavEnv) (cache : List (String × OrgUnitInfo)) :
    List String → List NavEvent → Bool × List NavEvent
  | [], evs => (true, evs)
  | [last], evs =>
    if (alookup cache last).isNone then (false, evs ++ [.reportMissing last])
    else if env.selectFails last then (false, evs ++ [.select last])
    else (true, evs ++ [.select last])
  | name :: next :: rest, evs =>
    if (alookup cache name).isNone then (false, evs ++ [.reportMissing name])
    else navigateGo env cache (next :: rest) (evs ++ [.expand name])

/-- `navigate_to_org_unit_by_path(unit_path)` run against an
already-loaded org-unit cache. -/
def navigate_to_org_unit_by_path (env : NavEnv) (cache : List (String × OrgUnitInfo))
    (unitPath : List String) : Bool × List NavEvent :=
  navigateGo env cache unitPath []

/-- What `main` does with the navigation result. -/
inductive RunOutcome where
  | abortedNav
  | continued
deriving DecidableEq

/-- The org-unit stage of `main`: `navigate_to_org_unit_by_path` is
called exactly once and `if not success: return` aborts the run; there
is no retry. -/
def mainOrgUnitStage (navSuccess : Bool) : RunOutcome :=
  if navSuccess then .continued else .abortedNav

/-! ## Recursive organizational-unit discovery
(`_discover_all_org_units_recursive` and `_add_org_unit_to_mapping`,
`dhis_automation.py` lines 174-253). -/

/-- The org-unit tree as rendered by the page, possibly malformed or
cyclic: each unit element id maps to whether the element exists, its
`level` attribute (0 when absent), the stripped text of its anchor
(`none` when it has no anchor), whether it has a `span.toggle`, and
its child element ids before and after a toggle click (only ids that
are non-null are listed, as the code skips falsy ids). -/
structure OrgPageEnv where
  existsOnPage : String → Bool
  levelOf : String → Nat
  anchorName : String → Option String
  hasToggle : String → Bool
  childrenBefore : String → List String
  childrenAfter : String → List String

/-- What `_add_org_unit_to_mapping` stores under the unit's name. -/
structure OrgUnitRecord where
  id : String
  full_element_id : String
  level : Nat
  selector : String
deriving DecidableEq

/-- `_add_org_unit_to_mapping(org_mapping, unit_id)`: nothing is
recorded when the element does not exist, has no anchor, or the
stripped anchor text is empty; otherwise the record is stored under
the name (overwriting a previous entry with the same name, as a dict
assignment does). -/
def addOrgUnitToMapping (env : OrgPageEnv) (orgMapping : List (String × OrgUnitRecord))
    (unitId : String) : List (String × OrgUnitRecord) :=
  if !env.existsOnPage unitId then orgMapping
  else
    match env.anchorName unitId with
    | none => orgMapping
    | some name =>
      if name = "" then orgMapping
      else
        setEntry orgMapping name
          { id := unitId.replace "orgUnit" ""
            full_element_id := unitId
            level := env.levelOf unitId
            selector := "#" ++ unitId }

/-- The body of `_discover_all_org_units_recursive`, written on the
fuel `max_depth + 1 - depth`: fuel `0` is the `depth > max_depth`
guard returning immediately.  Within the bound the unit is added to
the mapping and counted as visited; without a toggle the recursion
stops there; otherwise the children rendered before the toggle click
are used if any, else the children rendered after the lazy-loading
click, and each child is processed at `depth + 1`. -/
def discoverGo (env : OrgPageEnv) :
    Nat → List (String × OrgUnitRecord) → String →
      List (String × OrgUnitRecord) × List String
  | 0, orgMapping, _ => (orgMapping, [])
  | fuel + 1, orgMapping, unitId =>
    if !env.hasToggle unitId then
      (addOrgUnitToMapping env orgMapping unitId, [unitId])
    else
      (if (env.childrenBefore unitId).isEmpty then env.childrenAfter unitId
        else env.childrenBefore unitId).foldl
        (fun acc c =>
          ((discoverGo env fuel acc.1 c).1, acc.2 ++ (discoverGo env fuel acc.1 c).2))
        (addOrgUnitToMapping env orgMapping unitId, [unitId])

/-- `_discover_all_org_units_recursive(org_mapping, unit_id, depth, max_depth)`:
the mapping after the call together with the list of unit ids the
recursion actually processed (calls that return at the
`depth > max_depth` guard process nothing). -/
def discover_all_org_units_recursive (env : OrgPageEnv)
    (orgMapping : List (String × OrgUnitRecord)) (unitId : String)
    (depth maxDepth : Nat) : List (String × OrgUnitRecord) × List String :=
  discoverGo env (maxDepth + 1 - depth) orgMapping unitId

/-- The default value of the `max_depth` parameter. -/
def discoverMaxDepthDefault : Nat := 6

/-! ## Derived notions used in the statements below. -/

/-- All field names carried by a grouping, in processing order. -/
def groupNames (groups : List (String × List Assignment)) : List String :=
  (groups.map (fun g => g.2.map (fun f => f.1))).flatten

/-- The keys of the input record that survive the pre-grouping filter
of `fill_form_data`: a non-`None`, non-empty value and a cached
mapping.  This is the key set the spec says the result map consists
of. -/
def mappedNonEmptyKeys (cache : List (String × CacheEntry))
    (data : List (String × DataValue)) : List String :=
  (data.filter (fun kv => nonEmptyValue kv.2 && (alookup cache kv.1).isSome)).map Prod.fst

/-! ## Concrete inputs used by counterexamples and witnesses. -/

/-- The cached fingerprint of the spec's tolerance example:
`{tabs:3, counts:[40,35,20]}`. -/
def fpCachedExample : FormFingerprint :=
  ⟨3, [("Page1", 40), ("Page2", 35), ("Page3", 20)], 95⟩

/-- The accepted live fingerprint `{tabs:3, counts:[42,35,20]}`. -/
def fpLiveDrifted : FormFingerprint :=
  ⟨3, [("Page1", 42), ("Page2", 35), ("Page3", 20)], 97⟩

/-- The rejected live fingerprint `{tabs:2, counts:[40,35]}`. -/
def fpLiveTwoTabs : FormFingerprint :=
  ⟨2, [("Page1", 40), ("Page2", 35)], 75⟩

/-- A cached fingerprint whose count pass recorded no per-tab counts
and a zero total (each per-tab count attempt raised), as stored when
`generate_form_fingerprint` hits exceptions on every tab. -/
def fpCachedNoTotal : FormFingerprint := ⟨1, [], 0⟩

/-- A live fingerprint for the same form with 50 fields on its tab. -/
def fpLiveFifty : FormFingerprint := ⟨1, [("Page1", 50)], 50⟩

/-- A parsed fresh cache with one mapping and a stored fingerprint. -/
def cdFresh : CacheData :=
  ⟨[("HA - Outpatients New||<8 Days, M", .dictEntry "#f1-val" (some "Page1"))],
    some ⟨1, [("Page1", 40)], 40⟩⟩

/-- A live fingerprint that gained a tab relative to `cdFresh`. -/
def fpLiveTabAdded : FormFingerprint := ⟨2, [("Page1", 40), ("Page2", 12)], 52⟩

/-- A page on which every control is attached but hidden
(`wait_for(state="visible")` times out), and every tab switch
verifies successfully. -/
def envHidden : FillEnv :=
  { fieldAt := fun _ => ⟨false, false⟩
    tabAt := fun _ => ⟨true, false, 3⟩ }

/-- A one-field cache entry for the hidden-field scenario. -/
def cacheHidden : List (String × CacheEntry) :=
  [("HA - Radio days not working||default", .dictEntry "#radio-val" (some "Page1"))]

/-- A one-field input record for the hidden-field scenario. -/
def dataHidden : List (String × DataValue) :=
  [("HA - Radio days not working||default", some "7")]

/-- A generated table mapping boolean-valued and numeric input keys to
integer-valued remote day-count and count fields. -/
def gmBoolean : List (String × String) :=
  [("cold_chain_days_not_working", "HA - Cold chain days not working||default"),
   ("radio_days_not_working", "HA - Radio days not working||default"),
   ("outpatients_new_cases_1_to_4_years_male", "HA - Outpatients New||1 to 4 Years, M")]

/-- A health record carrying the boolean-like strings `"false"` and
`"true"` and the numeric string `"62"`. -/
def hdBoolean : List (String × HValue) :=
  [("cold_chain_days_not_working", .str "false"),
   ("radio_days_not_working", .str "true"),
   ("outpatients_new_cases_1_to_4_years_male", .str "62")]

/-- A page where the tab exists and is clickable but, after the click,
zero `input.entryfield:visible` elements are counted. -/
def envDeadTab : FillEnv :=
  { fieldAt := fun _ => ⟨true, false⟩
    tabAt := fun _ => ⟨true, false, 0⟩ }

/-- Two cached fields on the dead tab. -/
def cacheDeadTab : List (String × CacheEntry) :=
  [("HA - Treatments Injection||default", .dictEntry "#inj-val" (some "Page2")),
   ("HA - Treatments Dressing||default", .dictEntry "#dress-val" (some "Page2"))]

/-- Values for the two fields on the dead tab. -/
def dataDeadTab : List (String × DataValue) :=
  [("HA - Treatments Injection||default", some "62"),
   ("HA - Treatments Dressing||default", some "67")]

/-- The selectors that fill successfully in the low-success-rate
scenario: four out of ten. -/
def goodSelectors : List String := ["#s1", "#s2", "#s3", "#s4"]

/-- A page where exactly the four `goodSelectors` fill successfully
and the other six visible fields throw during filling. -/
def envLowRate : FillEnv :=
  { fieldAt := fun s => if goodSelectors.contains s then ⟨true, false⟩ else ⟨true, true⟩
    tabAt := fun _ => ⟨true, false, 10⟩ }

/-- Ten cached fields `k1..k10` on `Page1` with selectors `#s1..#s10`. -/
def cacheLowRate : List (String × CacheEntry) :=
  (List.range 10).map fun i =>
    ("k" ++ toString (i + 1), .dictEntry ("#s" ++ toString (i + 1)) (some "Page1"))

/-- Values for the ten fields of the low-success-rate scenario. -/
def dataLowRate : List (String × DataValue) :=
  (List.range 10).map fun i => ("k" ++ toString (i + 1), some "1")

/-- A file system holding the mapping cache file. -/
def fsWithCache : FS := [(cacheFileName, "cached-mappings-json")]

/-- A cache for the pre-grouping-filter scenario: three of the four
data keys have entries, one in the legacy string format. -/
def cacheFilter : List (String × CacheEntry) :=
  [("outpatients_new_cases_1_to_4_years_male", .dictEntry "#p1" (some "Page1")),
   ("metadata_month", .dictEntry "#p2" (some "Page1")),
   ("empty_field", .strEntry "#p3")]

/-- Input data exercising every exclusion of the pre-grouping filter:
a `None` value, an empty-string value, and a key with no cached
mapping, alongside one properly mapped non-empty entry. -/
def dataFilter : List (String × DataValue) :=
  [("outpatients_new_cases_1_to_4_years_male", some "5"),
   ("metadata_month", none),
   ("empty_field", some ""),
   ("unmapped_field", some "3")]

/-- An org-unit cache with the three ancestors of the default path but
without the terminal facility. -/
def cacheMissingLeaf : List (String × OrgUnitInfo) :=
  [("Solomon Islands", ⟨"NtlgKoJBimp", "orgUnitNtlgKoJBimp", 1⟩),
   ("Western", ⟨"v8eXAbhzdWe", "orgUnitv8eXAbhzdWe", 2⟩),
   ("Central Islands Western Province", ⟨"moAolIb5xS4", "orgUnitmoAolIb5xS4", 3⟩)]

/-- A navigation environment where no selection ever raises. -/
def envNavOk : NavEnv := ⟨fun _ => false⟩

/-- The default org-unit path of `main`. -/
def defaultOrgPath : List String :=
  ["Solomon Islands", "Western", "Central Islands Western Province", "Ghatere"]

/-- A rendered tree whose root element exists and is a leaf but
carries no anchor, so no name can be derived for it. -/
def envNamelessRoot : OrgPageEnv :=
  { existsOnPage := fun _ => true
    levelOf := fun _ => 1
    anchorName := fun _ => none
    hasToggle := fun _ => false
    childrenBefore := fun _ => []
    childrenAfter := fun _ => [] }

/-- A rendered tree with a named root and one named child rendered
lazily after the toggle click. -/
def envNamedPair : OrgPageEnv :=
  { existsOnPage := fun _ => true
    levelOf := fun u => if u = "orgUnitNtlgKoJBimp" then 1 else 2
    anchorName := fun u =>
      if u = "orgUnitNtlgKoJBimp" then some "Solomon Islands"
      else if u = "orgUnitv8eXAbhzdWe" then some "Western" else none
    hasToggle := fun u => u = "orgUnitNtlgKoJBimp"
    childrenBefore := fun _ => []
    childrenAfter := fun u => if u = "orgUnitNtlgKoJBimp" then ["orgUnitv8eXAbhzdWe"] else [] }

/-! # Theorems -/

/-! ## C1 - fingerprint staleness tolerance -/

theorem structureChanged_some_eq_false_iff (cached current : FormFingerprint) :
    structureChanged (some cached) current = false ↔
      current.tabs_found = cached.tabs_found ∧
        (∀ p ∈ cached.field_counts_per_tab,
          100 * natAbsDiff (countFor current.field_counts_per_tab p.1) p.2 ≤
            max 500 (15 * p.2)) ∧
        (cached.total_field_estimate = 0 ∨
          10 * natAbsDiff current.total_field_estimate cached.total_field_estimate ≤
            cached.total_field_estimate) := by
  simp only [structureChanged, tabCountChanged, totalCountChanged, perTabCountChanged,
    Bool.or_eq_false_iff, Bool.and_eq_false_iff, bne_eq_false_iff_eq, List.any_eq_false,
    decide_eq_false_iff_not, Bool.not_eq_true, decide_eq_true_eq, not_lt, gt_iff_lt]
  constructor
  · rintro ⟨⟨htab, htot⟩, hper⟩
    refine ⟨htab, fun p hp => ?_, ?_⟩
    · simpa using hper p hp
    · rcases htot with h | h
      · exact Or.inl (by omega)
      · exact Or.inr h
  · rintro ⟨htab, hper, htot⟩
    refine ⟨⟨htab, ?_⟩, fun p hp => by simpa using hper p hp⟩
    rcases htot with h | h
    · exact Or.inl (by omega)
    · exact Or.inr h

/-- C1 (corrected): the staleness check inside `load_cached_mappings`
accepts a cached fingerprint against a live one exactly when the tab
counts match, every per-tab count stored in the cache is within
`max(5, 15%)` of its cached value, and - whenever the cached total is
positive - the total is within 10 percent of the cached total (the
total-count comparison is skipped when the cached total is 0); in
particular the spec's example `{tabs:3, counts:[40,35,20]}` versus
`{tabs:3, counts:[42,35,20]}` is accepted and versus
`{tabs:2, counts:[40,35]}` is rejected. -/
theorem C1_fingerprint_tolerance :
    (∀ cached current : FormFingerprint,
      structureChanged (some cached) current = false ↔
        current.tabs_found = cached.tabs_found ∧
          (∀ p ∈ cached.field_counts_per_tab,
            100 * natAbsDiff (countFor current.field_counts_per_tab p.1) p.2 ≤
              max 500 (15 * p.2)) ∧
          (cached.total_field_estimate = 0 ∨
            10 * natAbsDiff current.total_field_estimate cached.total_field_estimate ≤
              cached.total_field_estimate)) ∧
    structureChanged (some fpCachedExample) fpLiveDrifted = false ∧
    structureChanged (some fpCachedExample) fpLiveTwoTabs = true :=
  ⟨structureChanged_some_eq_false_iff, by decide, by decide⟩

/-- Witness for C1: the accepted example, obtained through the
tolerance characterization. -/
theorem C1_fingerprint_tolerance_witness :
    fpLiveDrifted.tabs_found = fpCachedExample.tabs_found ∧
      structureChanged (some fpCachedExample) fpLiveDrifted = false :=
  ⟨((C1_fingerprint_tolerance.1 fpCachedExample fpLiveDrifted).mp
      C1_fingerprint_tolerance.2.1).1,
    C1_fingerprint_tolerance.2.1⟩

/-- C1 counterexample: a cached fingerprint whose stored total is `0`
is accepted against a live fingerprint with 50 fields, although the
live total is not within 10 percent of the cached total - the claimed
total-count condition is not necessary for acceptance. -/
theorem C1_counterexample_zero_total :
    structureChanged (some fpCachedNoTotal) fpLiveFifty = false ∧
      10 * natAbsDiff fpLiveFifty.total_field_estimate fpCachedNoTotal.total_field_estimate >
        fpCachedNoTotal.total_field_estimate := by
  constructor <;> decide

/-! ## C5 - when `load_cached_mappings` forces rediscovery -/

/-- C5 (corrected): `load_cached_mappings` returns `false` exactly
when the cache file is absent, the file fails to parse, the cache
holds zero mappings, the age is at least 24 hours, or the fresh
fingerprint is recomputed successfully and the staleness comparison
detects structural drift; and an error during the live fingerprint
recomputation of a fresh, non-empty cache makes it return `true` with
the cached mappings. -/
theorem C5_load_cached_mappings_false_iff :
    ∀ (fileExists : Bool) (parsed : Option CacheData) (age : ℚ)
      (fp : Except Unit FormFingerprint),
      (load_cached_mappings fileExists parsed age fp = false ↔
        fileExists = false ∨ parsed = none ∨
          ∃ cd, parsed = some cd ∧
            (cd.mappings = [] ∨ 24 ≤ age ∨
              ∃ cur, fp = .ok cur ∧ age < 24 ∧
                structureChanged cd.fingerprint cur = true)) ∧
      (∀ cd, fileExists = true → parsed = some cd → cd.mappings ≠ [] → age < 24 →
        fp = .error () → load_cached_mappings fileExists parsed age fp = true) := by
  intro fileExists parsed age fp
  constructor
  · cases fileExists with
    | false => simp [load_cached_mappings]
    | true =>
      cases parsed with
      | none => simp [load_cached_mappings]
      | some cd =>
        by_cases hm : cd.mappings = []
        · simp [load_cached_mappings, hm]
        · have hm' : ¬cd.mappings.length = 0 := by simpa [List.length_eq_zero] using hm
          rcases lt_or_le age 24 with hage | hage
          · cases fp with
            | error e =>
              simp [load_cached_mappings, hm', hm, if_pos hage, not_le.mpr hage]
            | ok cur =>
              by_cases hc : structureChanged cd.fingerprint cur = true
              · simp [load_cached_mappings, hm', hm, if_pos hage, hc, hage]
              · have hc' : structureChanged cd.fingerprint cur = false := by
                  simpa using hc
                simp [load_cached_mappings, hm', hm, if_pos hage, hc',
                  not_le.mpr hage]
          · simp [load_cached_mappings, hm', hm, if_neg (not_lt.mpr hage), hage]
  · intro cd hfe hp hm hage hfp
    subst hfe; subst hp; subst hfp
    have hm' : ¬cd.mappings.length = 0 := by simpa [List.length_eq_zero] using hm
    simp [load_cached_mappings, hm', if_pos hage]

/-- Witness for C5: a fresh, non-empty cache whose fingerprint
recomputation raises is loaded anyway. -/
theorem C5_load_cached_mappings_witness :
    load_cached_mappings true (some cdFresh) 2 (.error ()) = true :=
  (C5_load_cached_mappings_false_iff true (some cdFresh) 2 (.error ())).2 cdFresh rfl rfl
    (by decide) (by norm_num) rfl

/-- C5 counterexample: a present cache file with one mapping and age
2 hours - none of the three claimed conditions - still yields `false`
because the recomputed fingerprint gained a tab. -/
theorem C5_counterexample_drift :
    load_cached_mappings true (some cdFresh) 2 (.ok fpLiveTabAdded) = false ∧
      cdFresh.mappings.length ≠ 0 ∧ (2 : ℚ) < 24 := by
  refine ⟨by decide, by decide, by norm_num⟩

/-! ## C3 - values handed to the Filler by the generated-table tier -/

theorem mem_setEntry {α : Type} (l : List (String × α)) (k : String) (v : α)
    (p : String × α) (h : p ∈ setEntry l k v) : p ∈ l ∨ p = (k, v) := by
  induction l with
  | nil => simpa [setEntry] using h
  | cons q t ih =>
    obtain ⟨k', v'⟩ := q
    simp only [setEntry] at h
    split at h
    · rcases List.mem_cons.mp h with h | h
      · exact Or.inr h
      · exact Or.inl (List.mem_cons_of_mem _ h)
    · rcases List.mem_cons.mp h with h | h
      · exact Or.inl (by simp [h])
      · rcases ih h with h | h
        · exact Or.inl (List.mem_cons_of_mem _ h)
        · exact Or.inr h

theorem tryCompleteMapping_fold_mem (gm : List (String × String)) :
    ∀ (hd : List (String × HValue)) (acc : List (String × String)) (p : String × String),
      p ∈ hd.foldl
          (fun acc kv =>
            if kv.1 ∈ metadataKeys then acc
            else
              match alookup gm kv.1 with
              | some dhisField => setEntry acc dhisField (pyStr kv.2)
              | none => acc)
          acc →
      p ∈ acc ∨ ∃ k hv, (k, hv) ∈ hd ∧ alookup gm k = some p.1 ∧ p.2 = pyStr hv := by
  intro hd
  induction hd with
  | nil => intro acc p h; exact Or.inl h
  | cons kv t ih =>
    intro acc p h
    simp only [List.foldl_cons] at h
    rcases ih _ p h with hmem | ⟨k, hv, hk, hlk, hpv⟩
    · by_cases hmeta : kv.1 ∈ metadataKeys
      · simp only [hmeta, if_true] at hmem
        exact Or.inl hmem
      · simp only [hmeta, if_false] at hmem
        cases halo : alookup gm kv.1 with
        | none => rw [halo] at hmem; exact Or.inl hmem
        | some d =>
          rw [halo] at hmem
          rcases mem_setEntry _ _ _ _ hmem with hmem | hp
          · exact Or.inl hmem
          · refine Or.inr ⟨kv.1, kv.2, List.mem_cons_self _ _, ?_, ?_⟩
            · rw [halo, hp]
            · rw [hp]
    · exact Or.inr ⟨k, hv, List.mem_cons_of_mem _ hk, hlk, hpv⟩

/-- C3 (corrected): `_try_complete_mapping` performs no
boolean-to-integer conversion at all - every value it hands to the
Filler is literally `str(value)` of a source value under the generated
table's remote key; in particular a numeric string such as `"62"`
passes through unchanged. -/
theorem C3_values_passed_through_unconverted :
    (∀ (gm : List (String × String)) (hd : List (String × HValue)) (p : String × String),
      p ∈ tryCompleteMapping gm hd →
        ∃ k hv, (k, hv) ∈ hd ∧ alookup gm k = some p.1 ∧ p.2 = pyStr hv) ∧
    alookup (tryCompleteMapping gmBoolean hdBoolean)
        "HA - Outpatients New||1 to 4 Years, M" = some "62" := by
  constructor
  · intro gm hd p hp
    unfold tryCompleteMapping at hp
    split at hp
    · simp at hp
    · rcases tryCompleteMapping_fold_mem gm hd [] p hp with h | h
      · simp at h
      · exact h
  · decide

/-- Witness for C3: the `"62"` entry of the concrete run is the
unconverted string form of a source value. -/
theorem C3_values_passed_through_witness :
    ∃ k hv, (k, hv) ∈ hdBoolean ∧
      alookup gmBoolean k = some "HA - Outpatients New||1 to 4 Years, M" ∧
      ("62" : String) = pyStr hv :=
  C3_values_passed_through_unconverted.1 gmBoolean hdBoolean
    ("HA - Outpatients New||1 to 4 Years, M", "62") (by decide)

/-- C3 counterexample: the boolean-like source strings `"false"` and
`"true"`, mapped by the generated table onto the integer-valued
day-count fields, reach the Filler as `"false"` and `"true"` - not as
`"0"` and `"1"`. -/
theorem C3_counterexample_no_conversion :
    alookup (tryCompleteMapping gmBoolean hdBoolean)
        "HA - Cold chain days not working||default" = some "false" ∧
      ("false" : String) ≠ "0" ∧
      alookup (tryCompleteMapping gmBoolean hdBoolean)
        "HA - Radio days not working||default" = some "true" ∧
      ("true" : String) ≠ "1" := by
  refine ⟨by decide, by decide, by decide, by decide⟩

/-! ## C4 - LLM key validation and non-overwriting merge -/

theorem alookup_append_left {α : Type} (l r : List (String × α)) (k : String) (v : α)
    (h : alookup l k = some v) : alookup (l ++ r) k = some v := by
  induction l with
  | nil => simp [alookup] at h
  | cons q t ih =>
    obtain ⟨k', v'⟩ := q
    by_cases hk : k' = k
    · simpa [alookup, hk] using h
    · simp only [alookup, hk, if_false, List.cons_append] at h ⊢
      exact ih h

theorem validateLLM_fold_keys (known : List String) :
    ∀ (raw acc : List (String × String)),
      (∀ k ∈ acc.map Prod.fst, k ∈ known) →
      ∀ k ∈ ((raw.foldl
          (fun acc p => if known.contains p.1 then acc ++ [p] else acc) acc).map Prod.fst),
        k ∈ known := by
  intro raw
  induction raw with
  | nil => intro acc hacc k hk; exact hacc k hk
  | cons p t ih =>
    intro acc hacc k hk
    simp only [List.foldl_cons] at hk
    refine ih _ ?_ k hk
    intro j hj
    by_cases hc : known.contains p.1
    · simp only [hc, if_true, List.map_append, List.mem_append] at hj
      rcases hj with hj | hj
      · exact hacc j hj
      · have : j = p.1 := by simpa using hj
        subst this
        simpa using hc
    · simp only [hc, if_false] at hj
      exact hacc j hj

theorem mergeLLMResults_eq_append (mapped llm : List (String × String)) :
    ∃ rest, mergeLLMResults mapped llm = mapped ++ rest := by
  suffices h : ∀ (llm acc : List (String × String)),
      ∃ rest,
        llm.foldl (fun acc p => if (alookup acc p.1).isSome then acc else acc ++ [p]) acc =
          acc ++ rest by
    exact h llm mapped
  intro llm
  induction llm with
  | nil => intro acc; exact ⟨[], by simp⟩
  | cons p t ih =>
    intro acc
    simp only [List.foldl_cons]
    by_cases hc : (alookup acc p.1).isSome
    · simpa [hc] using ih acc
    · obtain ⟨rest, hr⟩ := ih (acc ++ [p])
      exact ⟨[p] ++ rest, by simp [hc, hr]⟩

/-- C4 (confirmed): every key surviving the LLM-output validation of
`map_health_data_to_dhis_fields` is a member of the known remote-key
list (hallucinated keys are discarded), and the merge in `main` never
overwrites a key already resolved by the generated-table tier. -/
theorem C4_llm_validation_and_merge :
    ∀ (known : List String) (raw mapped llm : List (String × String)) (k : String) (v : String),
      (k ∈ (validateLLMMappings known raw).map Prod.fst → k ∈ known) ∧
      (alookup mapped k = some v → alookup (mergeLLMResults mapped llm) k = some v) := by
  intro known raw mapped llm k v
  constructor
  · intro hk
    exact validateLLM_fold_keys known raw [] (by simp) k hk
  · intro hv
    obtain ⟨rest, hr⟩ := mergeLLMResults_eq_append mapped llm
    rw [hr]
    exact alookup_append_left _ _ _ _ hv

/-- Witness for C4: a hallucinated key is dropped while a valid key
survives, and the generated-table value for `"A"` survives the merge
with a conflicting LLM value. -/
theorem C4_llm_validation_and_merge_witness :
    ("HA - GBV referrals||18+ Years" ∈ ["HA - GBV referrals||18+ Years",
        "HA - Outpatients New||<8 Days, M"]) ∧
      alookup (mergeLLMResults [("HA - GBV referrals||18+ Years", "5")]
          [("HA - GBV referrals||18+ Years", "9"), ("HA - Radio days not working||default", "3")])
        "HA - GBV referrals||18+ Years" = some "5" :=
  ⟨(C4_llm_validation_and_merge
      ["HA - GBV referrals||18+ Years", "HA - Outpatients New||<8 Days, M"]
      [("HA - GBV referrals||18+ Years", "7"), ("Hallucinated||X", "9")]
      [] [] "HA - GBV referrals||18+ Years" "7").1 (by decide),
    (C4_llm_validation_and_merge [] []
      [("HA - GBV referrals||18+ Years", "5")]
      [("HA - GBV referrals||18+ Years", "9"), ("HA - Radio days not working||default", "3")]
      "HA - GBV referrals||18+ Years" "5").2 (by decide)⟩

/-! ## C8 - a missing path segment aborts without selecting -/

theorem navigateGo_missing (env : NavEnv) (cache : List (String × OrgUnitInfo)) :
    ∀ (path : List String) (evs : List NavEvent),
      (∃ n ∈ path, alookup cache n = none) →
      (navigateGo env cache path evs).1 = false ∧
      (∀ n, NavEvent.select n ∈ (navigateGo env cache path evs).2 →
        NavEvent.select n ∈ evs) ∧
      (∃ m ∈ path, alookup cache m = none ∧
        NavEvent.reportMissing m ∈ (navigateGo env cache path evs).2) := by
  intro path
  induction path with
  | nil => rintro evs ⟨n, hn, -⟩; cases hn
  | cons a tail ih =>
    intro evs hmiss
    cases tail with
    | nil =>
      obtain ⟨n, hn, hmn⟩ := hmiss
      have hna : n = a := by simpa using hn
      subst hna
      simp only [navigateGo, hmn, Option.isNone_none, if_true]
      refine ⟨trivial, ?_, ⟨n, by simp, hmn, by simp⟩⟩
      intro m hm
      rcases List.mem_append.mp hm with h | h
      · exact h
      · simp at h
    | cons b rest =>
      cases hma : alookup cache a with
      | none =>
        simp only [navigateGo, hma, Option.isNone_none, if_true]
        refine ⟨trivial, ?_, ⟨a, by simp, hma, by simp⟩⟩
        intro m hm
        rcases List.mem_append.mp hm with h | h
        · exact h
        · simp at h
      | some info =>
        have htail : ∃ n ∈ (b :: rest), alookup cache n = none := by
          obtain ⟨n, hn, hmn⟩ := hmiss
          rcases List.mem_cons.mp hn with h | h
          · subst h; rw [hma] at hmn; cases hmn
          · exact ⟨n, h, hmn⟩
        obtain ⟨h1, h2, m, hm, hmm, hmem⟩ :=
          ih (evs ++ [NavEvent.expand a]) htail
        simp only [navigateGo, hma, Option.isNone_some, if_false]
        refine ⟨h1, ?_, ⟨m, List.mem_cons_of_mem _ hm, hmm, hmem⟩⟩
        intro n hn
        rcases List.mem_append.mp (h2 n hn) with h | h
        · exact h
        · simp at h

/-- C8 (confirmed): whenever a path contains a name absent from the
org-unit cache, `navigate_to_org_unit_by_path` returns `False`, logs
the missing name, and never performs the terminal select action; in
`main` this `False` aborts the run (there is no retry). -/
theorem C8_missing_segment_aborts :
    ∀ (env : NavEnv) (cache : List (String × OrgUnitInfo)) (path : List String),
      (∃ n ∈ path, alookup cache n = none) →
      (navigate_to_org_unit_by_path env cache path).1 = false ∧
      (∀ n, NavEvent.select n ∉ (navigate_to_org_unit_by_path env cache path).2) ∧
      (∃ m ∈ path, alookup cache m = none ∧
        NavEvent.reportMissing m ∈ (navigate_to_org_unit_by_path env cache path).2) ∧
      mainOrgUnitStage (navigate_to_org_unit_by_path env cache path).1 =
        RunOutcome.abortedNav := by
  intro env cache path hmiss
  obtain ⟨h1, h2, h3⟩ := navigateGo_missing env cache path [] hmiss
  refine ⟨h1, fun n hn => by simpa using h2 n hn, h3, ?_⟩
  rw [show (navigate_to_org_unit_by_path env cache path).1 = false from h1]
  rfl

/-! ## Supporting lemmas about the filler -/

theorem fillTabGroup_results (env : FillEnv) (acc : FillOutcome) (tab : String)
    (fields : List Assignment) :
    (fillTabGroup env acc tab fields).results =
      acc.results ++
        (if switch_to_tab env tab then
          fields.map (fun f => (f.1, fill_field_by_selector env f.2.2))
        else fields.map (fun f => (f.1, false))) := by
  unfold fillTabGroup
  split <;> rfl

theorem fillTabGroup_attempted (env : FillEnv) (acc : FillOutcome) (tab : String)
    (fields : List Assignment) :
    (fillTabGroup env acc tab fields).attempted =
      acc.attempted ++
        (if switch_to_tab env tab then fields.map (fun f => f.1) else []) := by
  unfold fillTabGroup
  split <;> simp

theorem mem_groupNames {groups : List (String × List Assignment)}
    {g : String × List Assignment} {k : String}
    (hg : g ∈ groups) (hk : k ∈ g.2.map (fun f => f.1)) : k ∈ groupNames groups :=
  List.mem_flatten.mpr ⟨g.2.map (fun f => f.1), List.mem_map_of_mem _ hg, hk⟩

theorem fillGroups_results_map_fst (env : FillEnv) :
    ∀ (groups : List (String × List Assignment)) (acc : FillOutcome),
      (fillGroups env acc groups).results.map Prod.fst =
        acc.results.map Prod.fst ++ groupNames groups := by
  intro groups
  induction groups with
  | nil => intro acc; simp [fillGroups, groupNames]
  | cons g gs ih =>
    intro acc
    have hstep : fillGroups env acc (g :: gs) =
        fillGroups env (fillTabGroup env acc g.1 g.2) gs := rfl
    rw [hstep, ih]
    have hgrp : (fillTabGroup env acc g.1 g.2).results.map Prod.fst =
        acc.results.map Prod.fst ++ g.2.map (fun f => f.1) := by
      rw [fillTabGroup_results]
      split <;> simp [Function.comp]
    rw [hgrp]
    simp [groupNames]

theorem fillGroups_mem_results (env : FillEnv) :
    ∀ (groups : List (String × List Assignment)) (acc : FillOutcome)
      (p : String × Bool), p ∈ acc.results → p ∈ (fillGroups env acc groups).results := by
  intro groups
  induction groups with
  | nil => intro acc p h; exact h
  | cons g gs ih =>
    intro acc p h
    show p ∈ (fillGroups env (fillTabGroup env acc g.1 g.2) gs).results
    apply ih
    rw [fillTabGroup_results]
    exact List.mem_append_left _ h

theorem fillGroups_attempted_mem (env : FillEnv) :
    ∀ (groups : List (String × List Assignment)) (acc : FillOutcome) (k : String),
      k ∈ (fillGroups env acc groups).attempted →
      k ∈ acc.attempted ∨ ∃ g ∈ groups, switch_to_tab env g.1 = true ∧
        k ∈ g.2.map (fun f => f.1) := by
  intro groups
  induction groups with
  | nil => intro acc k h; exact Or.inl h
  | cons g gs ih =>
    intro acc k h
    rcases ih (fillTabGroup env acc g.1 g.2) k h with hmem | ⟨g', hg', hsw, hk⟩
    · rw [fillTabGroup_attempted] at hmem
      rcases List.mem_append.mp hmem with h1 | h1
      · exact Or.inl h1
      · by_cases hs : switch_to_tab env g.1 = true
        · rw [if_pos hs] at h1
          exact Or.inr ⟨g, List.mem_cons_self _ _, hs, h1⟩
        · rw [if_neg hs] at h1; cases h1
    · exact Or.inr ⟨g', List.mem_cons_of_mem _ hg', hsw, hk⟩

theorem fillGroups_attempted_le_results (env : FillEnv) :
    ∀ (groups : List (String × List Assignment)) (acc : FillOutcome),
      acc.attempted.length ≤ acc.results.length →
      (fillGroups env acc groups).attempted.length ≤
        (fillGroups env acc groups).results.length := by
  intro groups
  induction groups with
  | nil => intro acc h; exact h
  | cons g gs ih =>
    intro acc h
    show (fillGroups env (fillTabGroup env acc g.1 g.2) gs).attempted.length ≤ _
    apply ih
    rw [fillTabGroup_results, fillTabGroup_attempted]
    by_cases hs : switch_to_tab env g.1 = true <;> simp [hs] <;> omega

theorem fillGroups_failed_group_mem (env : FillEnv) :
    ∀ (groups : List (String × List Assignment)) (acc : FillOutcome)
      (tab : String) (fields : List Assignment) (f : Assignment),
      (tab, fields) ∈ groups → switch_to_tab env tab = false → f ∈ fields →
      (f.1, false) ∈ (fillGroups env acc groups).results := by
  intro groups
  induction groups with
  | nil => intro acc tab fields f h; cases h
  | cons g gs ih =>
    intro acc tab fields f hg hsw hf
    rcases List.mem_cons.mp hg with h | h
    · subst h
      show (f.1, false) ∈ (fillGroups env (fillTabGroup env acc tab fields) gs).results
      apply fillGroups_mem_results
      rw [fillTabGroup_results, if_neg (by simp [hsw])]
      exact List.mem_append_right _ (List.mem_map_of_mem _ hf)
    · exact ih _ tab fields f h hsw hf

theorem fillGroups_failed_not_attempted (env : FillEnv) :
    ∀ (groups : List (String × List Assignment)) (acc : FillOutcome)
      (tab : String) (fields : List Assignment) (f : Assignment),
      (groupNames groups).Nodup →
      (tab, fields) ∈ groups → switch_to_tab env tab = false → f ∈ fields →
      f.1 ∈ (fillGroups env acc groups).attempted → f.1 ∈ acc.attempted := by
  intro groups
  induction groups with
  | nil => intro acc tab fields f _ h; cases h
  | cons g gs ih =>
    intro acc tab fields f hnd hg hsw hf hatt
    have hnames : groupNames (g :: gs) = g.2.map (fun x => x.1) ++ groupNames gs := by
      simp [groupNames]
    rw [hnames, List.nodup_append] at hnd
    rcases List.mem_cons.mp hg with heq | hmem
    · subst heq
      have hacc : (fillTabGroup env acc tab fields).attempted = acc.attempted := by
        rw [fillTabGroup_attempted, if_neg (by simp [hsw])]
        simp
      rcases fillGroups_attempted_mem env gs _ f.1 hatt with h1 | ⟨g', hg', -, hk⟩
      · rwa [hacc] at h1
      · exact absurd (mem_groupNames hg' hk)
          (hnd.2.2 (List.mem_map_of_mem _ hf))
    · have h1 := ih (fillTabGroup env acc g.1 g.2) tab fields f hnd.2.1 hmem hsw hf hatt
      rw [fillTabGroup_attempted] at h1
      rcases List.mem_append.mp h1 with h1 | h1
      · exact h1
      · exfalso
        by_cases hs : switch_to_tab env g.1 = true
        · rw [if_pos hs] at h1
          exact hnd.2.2 h1 (mem_groupNames hmem (List.mem_map_of_mem _ hf))
        · rw [if_neg hs] at h1; cases h1

theorem groupNames_insertGroup_count :
    ∀ (groups : List (String × List Assignment)) (tab : String) (a : Assignment) (k : String),
      (groupNames (insertGroup groups tab a)).count k =
        (groupNames groups).count k + (if a.1 = k then 1 else 0) := by
  intro groups
  induction groups with
  | nil =>
    intro tab a k
    simp [insertGroup, groupNames, List.count_singleton']
  | cons g gs ih =>
    intro tab a k
    obtain ⟨t, items⟩ := g
    by_cases ht : t = tab
    · rw [show insertGroup ((t, items) :: gs) tab a = (t, items ++ [a]) :: gs by
        simp [insertGroup, ht]]
      simp only [groupNames, List.map_cons, List.flatten_cons, List.count_append,
        List.map_append, List.map_nil]
      simp [List.count_singleton']
      omega
    · rw [show insertGroup ((t, items) :: gs) tab a = (t, items) :: insertGroup gs tab a by
        simp [insertGroup, ht]]
      have h := ih tab a k
      simp only [groupNames, List.map_cons, List.flatten_cons, List.count_append] at h ⊢
      omega

theorem groupStep_some (cache : List (String × CacheEntry))
    (acc : List (String × List Assignment) × List String) (kv : String × DataValue)
    (entry : CacheEntry) (hne : nonEmptyValue kv.2 = true)
    (halo : alookup cache kv.1 = some entry) :
    groupStep cache acc kv =
      (insertGroup acc.1 entry.tabOf (kv.1, (kv.2.getD ""), entry.selectorOf), acc.2) := by
  simp [groupStep, hne, halo]

theorem groupStep_unmapped (cache : List (String × CacheEntry))
    (acc : List (String × List Assignment) × List String) (kv : String × DataValue)
    (hne : nonEmptyValue kv.2 = true) (halo : alookup cache kv.1 = none) :
    groupStep cache acc kv = (acc.1, acc.2 ++ [kv.1]) := by
  simp [groupStep, hne, halo]

theorem groupStep_empty (cache : List (String × CacheEntry))
    (acc : List (String × List Assignment) × List String) (kv : String × DataValue)
    (hne : nonEmptyValue kv.2 = false) : groupStep cache acc kv = acc := by
  simp [groupStep, hne]

theorem groupFields_fold_count (cache : List (String × CacheEntry)) :
    ∀ (data : List (String × DataValue))
      (acc : List (String × List Assignment) × List String) (k : String),
      (groupNames (data.foldl (groupStep cache) acc).1).count k =
        (groupNames acc.1).count k + (mappedNonEmptyKeys cache data).count k := by
  intro data
  induction data with
  | nil => intro acc k; simp [mappedNonEmptyKeys]
  | cons kv t ih =>
    intro acc k
    simp only [List.foldl_cons]
    by_cases hne : nonEmptyValue kv.2 = true
    · cases halo : alookup cache kv.1 with
      | some entry =>
        rw [groupStep_some cache acc kv entry hne halo, ih,
          groupNames_insertGroup_count]
        have hkept : mappedNonEmptyKeys cache (kv :: t) =
            kv.1 :: mappedNonEmptyKeys cache t := by
          simp [mappedNonEmptyKeys, List.filter_cons, hne, halo]
        rw [hkept, List.count_cons]
        simp only [beq_iff_eq]
        omega
      | none =>
        rw [groupStep_unmapped cache acc kv hne halo, ih]
        have hkept : mappedNonEmptyKeys cache (kv :: t) = mappedNonEmptyKeys cache t := by
          simp [mappedNonEmptyKeys, List.filter_cons, hne, halo]
        rw [hkept]
    · rw [groupStep_empty cache acc kv (by simpa using hne), ih]
      have hkept : mappedNonEmptyKeys cache (kv :: t) = mappedNonEmptyKeys cache t := by
        simp only [Bool.not_eq_true] at hne
        simp [mappedNonEmptyKeys, List.filter_cons, hne]
      rw [hkept]

theorem groupFieldsByTab_count (cache : List (String × CacheEntry))
    (data : List (String × DataValue)) (k : String) :
    (groupNames (groupFieldsByTab cache data).1).count k =
      (mappedNonEmptyKeys cache data).count k := by
  have h := groupFields_fold_count cache data ([], []) k
  simpa [groupFieldsByTab, groupNames] using h

theorem fill_results_count (env : FillEnv) (cache : List (String × CacheEntry))
    (data : List (String × DataValue)) (k : String) :
    ((fill_form_data env cache data).results.map Prod.fst).count k =
      (mappedNonEmptyKeys cache data).count k := by
  have h := fillGroups_results_map_fst env (groupFieldsByTab cache data).1 ⟨[], []⟩
  have h2 : (fill_form_data env cache data).results.map Prod.fst =
      groupNames (groupFieldsByTab cache data).1 := by
    simpa [fill_form_data] using h
  rw [h2, groupFieldsByTab_count]

theorem mappedNonEmptyKeys_nodup (cache : List (String × CacheEntry))
    (data : List (String × DataValue)) (h : (data.map Prod.fst).Nodup) :
    (mappedNonEmptyKeys cache data).Nodup :=
  h.sublist (List.Sublist.map Prod.fst (List.filter_sublist data))

theorem fill_results_keys_nodup (env : FillEnv) (cache : List (String × CacheEntry))
    (data : List (String × DataValue)) (h : (data.map Prod.fst).Nodup) :
    ((fill_form_data env cache data).results.map Prod.fst).Nodup := by
  rw [List.nodup_iff_count_le_one]
  intro a
  rw [fill_results_count]
  exact List.nodup_iff_count_le_one.mp (mappedNonEmptyKeys_nodup cache data h) a

theorem groupNames_groupFields_nodup (cache : List (String × CacheEntry))
    (data : List (String × DataValue)) (h : (data.map Prod.fst).Nodup) :
    (groupNames (groupFieldsByTab cache data).1).Nodup := by
  rw [List.nodup_iff_count_le_one]
  intro a
  rw [groupFieldsByTab_count]
  exact List.nodup_iff_count_le_one.mp (mappedNonEmptyKeys_nodup cache data h) a

theorem nodup_keys_unique {α : Type} :
    ∀ (l : List (String × α)), (l.map Prod.fst).Nodup →
      ∀ (k : String) (a b : α), (k, a) ∈ l → (k, b) ∈ l → a = b := by
  intro l
  induction l with
  | nil => intro _ k a b h; cases h
  | cons p t ih =>
    intro hnd k a b ha hb
    simp only [List.map_cons, List.nodup_cons] at hnd
    rcases List.mem_cons.mp ha with ha | ha <;> rcases List.mem_cons.mp hb with hb | hb
    · exact congrArg Prod.snd (ha.trans hb.symm)
    · exfalso
      apply hnd.1
      have hk : p.1 = k := by simp [← ha]
      rw [hk]
      simpa using List.mem_map_of_mem Prod.fst hb
    · exfalso
      apply hnd.1
      have hk : p.1 = k := by simp [← hb]
      rw [hk]
      simpa using List.mem_map_of_mem Prod.fst ha
    · exact ih hnd.2 k a b ha hb

theorem alookup_setEntry_self {α : Type} :
    ∀ (l : List (String × α)) (k : String) (v : α), alookup (setEntry l k v) k = some v := by
  intro l k v
  induction l with
  | nil => simp [setEntry, alookup]
  | cons p t ih =>
    obtain ⟨a, b⟩ := p
    by_cases ha : a = k
    · simp [setEntry, ha, alookup]
    · simp [setEntry, ha, alookup, ih]

theorem alookup_setEntry_ne {α : Type} :
    ∀ (l : List (String × α)) (k k' : String) (v : α), k' ≠ k →
      alookup (setEntry l k v) k' = alookup l k' := by
  intro l k k' v hne
  induction l with
  | nil =>
    show (if k = k' then some v else alookup [] k') = alookup [] k'
    rw [if_neg (fun h => hne h.symm)]
  | cons p t ih =>
    obtain ⟨a, b⟩ := p
    by_cases ha : a = k
    · rw [show setEntry ((a, b) :: t) k v = (k, v) :: t by simp [setEntry, ha]]
      show (if k = k' then some v else alookup t k') =
        if a = k' then some b else alookup t k'
      rw [if_neg (fun h => hne h.symm), if_neg (fun h => hne (h.symm.trans ha))]
    · simp [setEntry, ha, alookup, ih]

/-! ## C2 - hidden fields are recorded as failed, not skipped -/

/-- C2 (corrected): the filler has no skipped classification at all - a
field whose control is hidden (its visibility wait times out) is
recorded as `False` in the result map, exactly like a visible field
whose fill raises, and in both cases the field contributes to the
denominator and not the numerator of the reported success rate. -/
theorem C2_hidden_field_recorded_failed :
    ∀ (env : FillEnv) (fname value sel tab : String),
      value ≠ "" →
      switch_to_tab env tab = true →
      ((env.fieldAt sel).visible = false ∨ (env.fieldAt sel).fillThrows = true) →
      (fill_form_data env [(fname, CacheEntry.dictEntry sel (some tab))]
          [(fname, some value)]).results = [(fname, false)] ∧
      countSuccesses (fill_form_data env [(fname, CacheEntry.dictEntry sel (some tab))]
          [(fname, some value)]).results = 0 ∧
      (fill_form_data env [(fname, CacheEntry.dictEntry sel (some tab))]
          [(fname, some value)]).results.length = 1 := by
  intro env fname value sel tab hv hsw hfield
  have hfill : fill_field_by_selector env sel = false := by
    rcases hfield with h | h <;> simp [fill_field_by_selector, h]
  have hne : nonEmptyValue (some value) = true := by simp [nonEmptyValue, hv]
  have hgroup : (groupFieldsByTab [(fname, CacheEntry.dictEntry sel (some tab))]
      [(fname, some value)]).1 = [(tab, [(fname, value, sel)])] := by
    simp [groupFieldsByTab, groupStep, hne, alookup, insertGroup, CacheEntry.tabOf,
      CacheEntry.selectorOf]
  unfold fill_form_data
  rw [hgroup]
  simp [fillGroups, fillTabGroup, hsw, hfill, countSuccesses]

/-- Witness for C2: on a page where the control is attached but
hidden, the single field comes back `False`. -/
theorem C2_hidden_field_recorded_failed_witness :
    (fill_form_data envHidden
        [("HA - Midwife(s)||default", CacheEntry.dictEntry "#mw-val" (some "Page1"))]
        [("HA - Midwife(s)||default", some "2")]).results =
      [("HA - Midwife(s)||default", false)] :=
  (C2_hidden_field_recorded_failed envHidden "HA - Midwife(s)||default" "2" "#mw-val" "Page1"
    (by decide) (by decide) (Or.inl rfl)).1

/-- C2 counterexample: the hidden field of the concrete scenario is
not skipped - it appears in the result map as `False` and counts in
the denominator (1 reported field, 0 successes), contrary to the
claim that it contributes to neither numerator nor denominator. -/
theorem C2_counterexample_hidden_in_denominator :
    (fill_form_data envHidden cacheHidden dataHidden).results =
        [("HA - Radio days not working||default", false)] ∧
      (fill_form_data envHidden cacheHidden dataHidden).results.length = 1 ∧
      countSuccesses (fill_form_data envHidden cacheHidden dataHidden).results = 0 := by
  refine ⟨by decide, by decide, by decide⟩

/-! ## C6 - a failed tab switch fails its whole group -/

/-- C6 (confirmed): when the tab element is clicked but zero
`input.entryfield:visible` controls are counted afterwards (and the
verification itself does not raise), `_switch_to_tab` reports failure
and `fill_form_data` marks every field of that tab group `False`
without invoking `fill_field_by_selector` on any of them. -/
theorem C6_failed_tab_switch_marks_group_failed :
    ∀ (env : FillEnv) (cache : List (String × CacheEntry))
      (data : List (String × DataValue)) (tab : String)
      (fields : List Assignment) (f : Assignment),
      (data.map Prod.fst).Nodup →
      (tab, fields) ∈ (groupFieldsByTab cache data).1 →
      (env.tabAt tab).clickable = true →
      (env.tabAt tab).verifyRaises = false →
      (env.tabAt tab).visibleFieldCount = 0 →
      f ∈ fields →
      switch_to_tab env tab = false ∧
      (f.1, false) ∈ (fill_form_data env cache data).results ∧
      (∀ b, (f.1, b) ∈ (fill_form_data env cache data).results → b = false) ∧
      f.1 ∉ (fill_form_data env cache data).attempted := by
  intro env cache data tab fields f hnd hg hclick hver hcount hf
  have hsw : switch_to_tab env tab = false := by
    simp [switch_to_tab, hclick, hver, hcount]
  have hmem : (f.1, false) ∈ (fill_form_data env cache data).results :=
    fillGroups_failed_group_mem env (groupFieldsByTab cache data).1 ⟨[], []⟩
      tab fields f hg hsw hf
  refine ⟨hsw, hmem, ?_, ?_⟩
  · intro b hb
    exact nodup_keys_unique _ (fill_results_keys_nodup env cache data hnd) f.1 b false hb hmem
  · intro hatt
    have h := fillGroups_failed_not_attempted env (groupFieldsByTab cache data).1 ⟨[], []⟩
      tab fields f (groupNames_groupFields_nodup cache data hnd) hg hsw hf hatt
    simp at h

/-- Witness for C6: both cached fields of the dead `Page2` group are
never attempted and the first comes back `False`. -/
theorem C6_failed_tab_switch_witness :
    ("HA - Treatments Injection||default", false) ∈
        (fill_form_data envDeadTab cacheDeadTab dataDeadTab).results ∧
      "HA - Treatments Injection||default" ∉
        (fill_form_data envDeadTab cacheDeadTab dataDeadTab).attempted := by
  have h := C6_failed_tab_switch_marks_group_failed envDeadTab cacheDeadTab dataDeadTab "Page2"
    [("HA - Treatments Injection||default", "62", "#inj-val"),
     ("HA - Treatments Dressing||default", "67", "#dress-val")]
    ("HA - Treatments Injection||default", "62", "#inj-val")
    (by decide) (by decide) rfl rfl rfl (by decide)
  exact ⟨h.2.1, h.2.2.2⟩

/-! ## C7 - low success rate triggers a cache backup -/

/-- C7 (confirmed): when a fill pass ends with fewer than half of its
attempted fields succeeding, the self-healing block logs the staleness
recommendation and copies the mapping cache file to
`dhis_field_mappings.json.backup_failed`; the original file stays
present with unchanged contents (it is copied, never deleted or
moved). -/
theorem C7_low_success_rate_backs_up_cache :
    ∀ (env : FillEnv) (cache : List (String × CacheEntry))
      (data : List (String × DataValue)) (fs : FS) (contents : String),
      (fill_form_data env cache data).attempted ≠ [] →
      2 * countSuccesses (fill_form_data env cache data).results <
        (fill_form_data env cache data).attempted.length →
      fsRead fs cacheFileName = some contents →
      staleRecommendationLogged (fill_form_data env cache data) = true ∧
      fsRead (selfHealingEffect fs (fill_form_data env cache data)) cacheBackupName =
        some contents ∧
      fsRead (selfHealingEffect fs (fill_form_data env cache data)) cacheFileName =
        some contents := by
  intro env cache data fs contents hatt hrate hread
  have hlen : (fill_form_data env cache data).attempted.length ≤
      (fill_form_data env cache data).results.length := by
    have h := fillGroups_attempted_le_results env (groupFieldsByTab cache data).1
      ⟨[], []⟩ (by simp)
    simpa [fill_form_data] using h
  have hpos : 0 < (fill_form_data env cache data).attempted.length :=
    List.length_pos.mpr hatt
  have hlow : lowSuccessRate (fill_form_data env cache data) = true := by
    simp only [lowSuccessRate, Bool.and_eq_true, decide_eq_true_eq, gt_iff_lt]
    omega
  refine ⟨hlow, ?_, ?_⟩
  · simp only [selfHealingEffect, hlow, if_true, hread]
    exact alookup_setEntry_self fs cacheBackupName contents
  · simp only [selfHealingEffect, hlow, if_true, hread]
    rw [show fsRead (fsWrite fs cacheBackupName contents) cacheFileName =
        alookup (setEntry fs cacheBackupName contents) cacheFileName from rfl]
    rw [alookup_setEntry_ne fs cacheBackupName cacheFileName contents (by decide)]
    exact hread

/-- Witness for C7: the spec's 10-field, 4-success scenario (40
percent) writes the backup and keeps the original cache file. -/
theorem C7_low_success_rate_witness :
    staleRecommendationLogged (fill_form_data envLowRate cacheLowRate dataLowRate) = true ∧
      fsRead (selfHealingEffect fsWithCache (fill_form_data envLowRate cacheLowRate dataLowRate))
          cacheBackupName = some "cached-mappings-json" ∧
      fsRead (selfHealingEffect fsWithCache (fill_form_data envLowRate cacheLowRate dataLowRate))
          cacheFileName = some "cached-mappings-json" :=
  C7_low_success_rate_backs_up_cache envLowRate cacheLowRate dataLowRate fsWithCache
    "cached-mappings-json" (by decide) (by decide) (by decide)

/-! ## C10 - the pre-grouping filter determines the result key set -/

/-- C10 (confirmed): an input entry with a `None` or empty value, or
without a cached mapping, is excluded before tab grouping - it is
never passed to `fill_field_by_selector` and appears in the result map
as neither `true` nor `false`; the result map's key set is exactly the
non-empty-valued keys that have a cached mapping. -/
theorem C10_result_keys_exactly_mapped_nonempty :
    ∀ (env : FillEnv) (cache : List (String × CacheEntry))
      (data : List (String × DataValue)) (k : String),
      (k ∈ (fill_form_data env cache data).results.map Prod.fst ↔
        k ∈ mappedNonEmptyKeys cache data) ∧
      (k ∉ mappedNonEmptyKeys cache data →
        k ∉ (fill_form_data env cache data).attempted) := by
  intro env cache data k
  constructor
  · rw [← List.count_pos_iff, ← List.count_pos_iff, fill_results_count]
  · intro hk hatt
    rcases fillGroups_attempted_mem env (groupFieldsByTab cache data).1 ⟨[], []⟩ k hatt with
      h | ⟨g, hg, -, hkg⟩
    · simp at h
    · have hmem : k ∈ groupNames (groupFieldsByTab cache data).1 := mem_groupNames hg hkg
      rw [← List.count_pos_iff, groupFieldsByTab_count] at hmem
      exact hk (List.count_pos_iff.mp hmem)

/-- Witness for C10: the `None`-valued key of the concrete record,
though cached, appears nowhere in the result map and is never
attempted. -/
theorem C10_result_keys_witness :
    "metadata_month" ∉ (fill_form_data envHidden cacheFilter dataFilter).results.map Prod.fst ∧
      "metadata_month" ∉ (fill_form_data envHidden cacheFilter dataFilter).attempted := by
  have h := C10_result_keys_exactly_mapped_nonempty envHidden cacheFilter dataFilter
    "metadata_month"
  have hk : "metadata_month" ∉ mappedNonEmptyKeys cacheFilter dataFilter := by decide
  exact ⟨fun hm => hk (h.1.mp hm), h.2 hk⟩

/-! ## C9 - depth-bounded recursive org-unit discovery -/

theorem setEntry_keys_mono {α : Type} :
    ∀ (l : List (String × α)) (k j : String) (v : α),
      j ∈ l.map Prod.fst → j ∈ (setEntry l k v).map Prod.fst := by
  intro l k j v
  induction l with
  | nil => intro h; simp at h
  | cons p t ih =>
    intro h
    obtain ⟨a, b⟩ := p
    simp only [List.map_cons, List.mem_cons] at h
    by_cases ha : a = k
    · rw [show setEntry ((a, b) :: t) k v = (k, v) :: t by simp [setEntry, ha]]
      simp only [List.map_cons, List.mem_cons]
      rcases h with h | h
      · exact Or.inl (h.trans ha)
      · exact Or.inr h
    · rw [show setEntry ((a, b) :: t) k v = (a, b) :: setEntry t k v by simp [setEntry, ha]]
      simp only [List.map_cons, List.mem_cons]
      rcases h with h | h
      · exact Or.inl h
      · exact Or.inr (ih h)

theorem setEntry_key_self_mem {α : Type} :
    ∀ (l : List (String × α)) (k : String) (v : α),
      k ∈ (setEntry l k v).map Prod.fst := by
  intro l k v
  induction l with
  | nil => simp [setEntry]
  | cons p t ih =>
    obtain ⟨a, b⟩ := p
    by_cases ha : a = k
    · rw [show setEntry ((a, b) :: t) k v = (k, v) :: t by simp [setEntry, ha]]
      simp
    · rw [show setEntry ((a, b) :: t) k v = (a, b) :: setEntry t k v by simp [setEntry, ha]]
      simp only [List.map_cons, List.mem_cons]
      exact Or.inr ih

theorem addOrgUnit_keys_mono (env : OrgPageEnv) (m : List (String × OrgUnitRecord))
    (u j : String) (h : j ∈ m.map Prod.fst) :
    j ∈ (addOrgUnitToMapping env m u).map Prod.fst := by
  cases hex : env.existsOnPage u with
  | false => simpa [addOrgUnitToMapping, hex] using h
  | true =>
    cases han : env.anchorName u with
    | none => simpa [addOrgUnitToMapping, hex, han] using h
    | some name =>
      by_cases hn : name = ""
      · simpa [addOrgUnitToMapping, hex, han, hn] using h
      · rw [show addOrgUnitToMapping env m u = setEntry m name
            { id := u.replace "orgUnit" "", full_element_id := u,
              level := env.levelOf u, selector := "#" ++ u } by
          simp [addOrgUnitToMapping, hex, han, hn]]
        exact setEntry_keys_mono m name j _ h

theorem addOrgUnit_records (env : OrgPageEnv) (m : List (String × OrgUnitRecord))
    (u name : String) (hex : env.existsOnPage u = true)
    (han : env.anchorName u = some name) (hn : name ≠ "") :
    name ∈ (addOrgUnitToMapping env m u).map Prod.fst := by
  rw [show addOrgUnitToMapping env m u = setEntry m name
      { id := u.replace "orgUnit" "", full_element_id := u,
        level := env.levelOf u, selector := "#" ++ u } by
    simp [addOrgUnitToMapping, hex, han, hn]]
  exact setEntry_key_self_mem m name _

theorem discoverGo_keys_mono (env : OrgPageEnv) :
    ∀ (fuel : Nat) (m : List (String × OrgUnitRecord)) (u j : String),
      j ∈ m.map Prod.fst → j ∈ (discoverGo env fuel m u).1.map Prod.fst := by
  intro fuel
  induction fuel with
  | zero => intro m u j h; exact h
  | succ n ih =>
    intro m u j h
    simp only [discoverGo]
    by_cases ht : env.hasToggle u = true
    · simp only [ht, Bool.not_true, Bool.false_eq_true, if_false]
      have haux : ∀ (kids : List String)
          (acc : List (String × OrgUnitRecord) × List String),
          j ∈ acc.1.map Prod.fst →
          j ∈ (kids.foldl
              (fun acc c =>
                ((discoverGo env n acc.1 c).1, acc.2 ++ (discoverGo env n acc.1 c).2))
              acc).1.map Prod.fst := by
        intro kids
        induction kids with
        | nil => intro acc hacc; exact hacc
        | cons c cs ihk =>
          intro acc hacc
          simp only [List.foldl_cons]
          exact ihk _ (ih acc.1 c j hacc)
      exact haux _ _ (addOrgUnit_keys_mono env m u j h)
    · have ht' : env.hasToggle u = false := by simpa using ht
      simp only [ht', Bool.not_false, if_true]
      exact addOrgUnit_keys_mono env m u j h

theorem discoverGo_visited_recorded (env : OrgPageEnv) :
    ∀ (fuel : Nat) (m : List (String × OrgUnitRecord)) (u : String),
      ∀ v ∈ (discoverGo env fuel m u).2, ∀ name,
        env.existsOnPage v = true → env.anchorName v = some name → name ≠ "" →
        name ∈ (discoverGo env fuel m u).1.map Prod.fst := by
  intro fuel
  induction fuel with
  | zero => intro m u v hv; simp [discoverGo] at hv
  | succ n ih =>
    intro m u v hv name hex han hn
    simp only [discoverGo] at hv ⊢
    by_cases ht : env.hasToggle u = true
    · simp only [ht, Bool.not_true, Bool.false_eq_true, if_false] at hv ⊢
      have haux : ∀ (kids : List String)
          (acc : List (String × OrgUnitRecord) × List String),
          (∀ w ∈ acc.2, ∀ nm, env.existsOnPage w = true → env.anchorName w = some nm →
            nm ≠ "" → nm ∈ acc.1.map Prod.fst) →
          ∀ w ∈ (kids.foldl
              (fun acc c =>
                ((discoverGo env n acc.1 c).1, acc.2 ++ (discoverGo env n acc.1 c).2))
              acc).2, ∀ nm, env.existsOnPage w = true → env.anchorName w = some nm →
            nm ≠ "" →
            nm ∈ (kids.foldl
              (fun acc c =>
                ((discoverGo env n acc.1 c).1, acc.2 ++ (discoverGo env n acc.1 c).2))
              acc).1.map Prod.fst := by
        intro kids
        induction kids with
        | nil => intro acc hinv; exact hinv
        | cons c cs ihk =>
          intro acc hinv
          simp only [List.foldl_cons]
          apply ihk
          intro w hw nm hex' han' hn'
          rcases List.mem_append.mp hw with hw | hw
          · exact discoverGo_keys_mono env n acc.1 c nm (hinv w hw nm hex' han' hn')
          · exact ih acc.1 c w hw nm hex' han' hn'
      refine haux _ _ ?_ v hv name hex han hn
      intro w hw nm hex' han' hn'
      have hwu : w = u := by simpa using hw
      subst hwu
      exact addOrgUnit_records env m w nm hex' han' hn'
    · have ht' : env.hasToggle u = false := by simpa using ht
      simp only [ht', Bool.not_false, if_true] at hv ⊢
      have hvu : v = u := by simpa using hv
      subst hvu
      exact addOrgUnit_records env m v name hex han hn

/-- C9 (corrected): the recursion of
`_discover_all_org_units_recursive` is total by construction on the
fuel `max_depth + 1 - depth` and returns immediately - visiting and
recording nothing - once `depth > max_depth` (default 6); within the
bound, every visited node whose element exists and yields a non-empty
anchor name is recorded in the mapping under that name. -/
theorem C9_discovery_depth_bounded :
    (∀ (env : OrgPageEnv) (m : List (String × OrgUnitRecord)) (u : String)
      (depth maxDepth : Nat), maxDepth < depth →
        discover_all_org_units_recursive env m u depth maxDepth = (m, [])) ∧
    (∀ (env : OrgPageEnv) (m : List (String × OrgUnitRecord)) (u : String)
      (depth maxDepth : Nat) (v name : String),
        v ∈ (discover_all_org_units_recursive env m u depth maxDepth).2 →
        env.existsOnPage v = true → env.anchorName v = some name → name ≠ "" →
        name ∈ (discover_all_org_units_recursive env m u depth maxDepth).1.map Prod.fst) ∧
    discoverMaxDepthDefault = 6 := by
  refine ⟨?_, ?_, rfl⟩
  · intro env m u depth maxDepth h
    unfold discover_all_org_units_recursive
    rw [show maxDepth + 1 - depth = 0 by omega]
    rfl
  · intro env m u depth maxDepth v name hv hex han hn
    exact discoverGo_visited_recorded env (maxDepth + 1 - depth) m u v hv name hex han hn

/-- Witness for C9: on a two-node tree, the lazily loaded child is
visited within the bound and the root's name is recorded. -/
theorem C9_discovery_depth_bounded_witness :
    "Solomon Islands" ∈
      (discover_all_org_units_recursive envNamedPair [] "orgUnitNtlgKoJBimp" 0 6).1.map
        Prod.fst :=
  C9_discovery_depth_bounded.2.1 envNamedPair [] "orgUnitNtlgKoJBimp" 0 6
    "orgUnitNtlgKoJBimp" "Solomon Islands" (by decide) (by decide) (by decide) (by decide)

/-- C9 counterexample: a root element that exists and is visited
within the depth bound but has no anchor is not recorded - the
output mapping is empty while the visited list is not. -/
theorem C9_counterexample_nameless_node :
    (discover_all_org_units_recursive envNamelessRoot [] "orgUnitX" 0 6).2 = ["orgUnitX"] ∧
      (discover_all_org_units_recursive envNamelessRoot [] "orgUnitX" 0 6).1 = [] := by
  refine ⟨by decide, by decide⟩

/-- Witness for C8: the default path against a cache missing the
terminal facility `"Ghatere"` fails and aborts the run. -/
theorem C8_missing_segment_aborts_witness :
    (navigate_to_org_unit_by_path envNavOk cacheMissingLeaf defaultOrgPath).1 = false ∧
      mainOrgUnitStage (navigate_to_org_unit_by_path envNavOk cacheMissingLeaf defaultOrgPath).1 =
        RunOutcome.abortedNav :=
  ⟨(C8_missing_segment_aborts envNavOk cacheMissingLeaf defaultOrgPath
      ⟨"Ghatere", by decide, by decide⟩).1,
    (C8_missing_segment_aborts envNavOk cacheMissingLeaf defaultOrgPath
      ⟨"Ghatere", by decide, by decide⟩).2.2.2⟩

end DHIS
